import Mathlib

/-!
Verification of the path-resolution and relink-decision logic of
`fixMyRefs` (src/fixMyRefs2025_7.py), a Maya reference-relinker tool.

The pure core of the tool is embedded shallowly:
* `stripCopySuffix` models the inline use of `copy_suffix_pattern`
  (`re.compile(r"(.+)({\x7bd+})$")` applied with `re.match`);
* `find_file_in_directory`, `convert_slashes` model the functions of the
  same names;
* `relink_references` models the batch-relink procedure, with host
  (Maya `cmds`) and filesystem (`os.path` / `os.walk`) calls abstracted
  as explicit collaborator records `Host` / `FS` of pure functions.

Machine-level caveats of the embedding, stated once here:
* Python strings are modelled as Lean `String` (sequences of code
  points); Python slicing `s[:n]` is `pySlice`.
* Python's `\x5cd` in the copy-suffix regex accepts any Unicode decimal
  digit; the model uses `Char.isDigit` (ASCII digits), which coincides
  on every input appearing in the specification and claims.
* Python's `$` anchor also matches just before a single trailing
  newline; `stripFinalNewline` reproduces this, and `.` (used for the
  base group) does not match a newline, hence the newline side
  conditions in `copySuffixCore`.
* `os.walk` of a path that is not an existing directory yields nothing;
  an `FS` value records the walk result directly.
* The Python code `print`s a console message when skipping a vanished
  reference node; the console is not part of the session log and is not
  modelled.
-/

set_option autoImplicit false

namespace FixMyRefs

/-- A Maya reference node name (an opaque handle, compared by name). -/
abbrev Ref := String

/-- The two brace characters, named to keep them out of string literals. -/
def lbrace : Char := Char.ofNat 123

def rbrace : Char := Char.ofNat 125

/-- Python `$` also matches just before one trailing newline: on the
REVERSED character list, drop a single leading newline if present. -/
def stripFinalNewline (l : List Char) : List Char :=
  match l with
  | [] => []
  | c :: rest => if c = '\n' then rest else c :: rest

/-- Core of `copy_suffix_pattern.match` on the reversed character list of
the filename (after the `$`-newline adjustment): the input matches
`(.+)(\x7b\d+\x7d)$` anchored at the start iff it ends with a literal
`\x7b digits \x7d` group with nonempty digits and a nonempty base that
contains no newline (`.` does not match a newline).  Returns the
(reversed) base group. -/
def copySuffixCore (l : List Char) : Option (List Char) :=
  match l with
  | [] => none
  | c :: rest =>
    if c = rbrace then
      match rest.dropWhile Char.isDigit with
      | [] => none
      | d :: baseRev =>
        if d = lbrace ∧ rest.takeWhile Char.isDigit ≠ [] ∧ baseRev ≠ [] ∧ '\n' ∉ baseRev then
          some baseRev.reverse
        else none
    else none

/-- Models `copy_suffix_pattern.match fileName` followed by `.group(1)`. -/
def copySuffixSplit (fileName : String) : Option String :=
  (copySuffixCore (stripFinalNewline fileName.data.reverse)).map String.mk

/-- The suffix-stripping step of `relink_references` (lines 197-200 and
254-257 of the source): `clean_file_name = match.group(1)` when
`copy_suffix_pattern.match` succeeds, else the raw filename. -/
def stripCopySuffix (fileName : String) : String :=
  (copySuffixSplit fileName).getD fileName

/-- Spec-side predicate (from the claim's words, for the refinement
statement): `f` ends with a base portion immediately followed by a
brace-enclosed nonempty digit string. -/
def matchesDecoration (f base ds : String) : Prop :=
  base ≠ "" ∧ ds ≠ "" ∧ (∀ c ∈ ds.data, c.isDigit = true) ∧
    f = base ++ "\x7b" ++ ds ++ "\x7d"

instance (f base ds : String) : Decidable (matchesDecoration f base ds) := by
  unfold matchesDecoration; infer_instance

/-- Models `os.path.basename` (POSIX): the part after the last slash. -/
def basename (p : String) : String :=
  String.mk ((p.data.reverse.takeWhile fun c => !(c = '/')).reverse)

/-- Is the first character a slash? -/
def headIsSlash (s : String) : Bool :=
  match s.data with
  | [] => false
  | c :: _ => c = '/'

/-- Is the last character a slash? -/
def lastIsSlash (s : String) : Bool :=
  match s.data.reverse with
  | [] => false
  | c :: _ => c = '/'

/-- Models `os.path.join root name` (POSIX): an absolute second component
wins; otherwise the components are joined with exactly one slash. -/
def joinPath (root name : String) : String :=
  if headIsSlash name then name
  else if root = "" then name
  else if lastIsSlash root then root ++ name
  else root ++ "/" ++ name

/-- Python `str.strip()` with no argument: remove leading and trailing
whitespace (modelled with `Char.isWhitespace`). -/
def pyStrip (s : String) : String :=
  String.mk (((s.data.dropWhile Char.isWhitespace).reverse.dropWhile
    Char.isWhitespace).reverse)

/-- Models `convert_slashes` (source lines 167-171): Python
`path.replace("\x5c\x5c", "/")` — the pattern is the single backslash
character, so the replacement is a character map. -/
def convert_slashes (path : String) (convertToForward : Bool) : String :=
  if convertToForward then
    String.mk (path.data.map fun c => if c = '\\' then '/' else c)
  else path

/-- Does the second list start with the first? -/
def subListAt : List Char → List Char → Bool
  | [], _ => true
  | _ :: _, [] => false
  | a :: as, b :: bs => (a = b) && subListAt as bs

/-- Auxiliary scan for the Python substring check. -/
def containsSubAux (n : List Char) : List Char → Bool
  | [] => n.isEmpty
  | h :: t => subListAt n (h :: t) || containsSubAux n t

/-- Python substring check `needle in hay`. -/
def containsSub (needle hay : String) : Bool :=
  containsSubAux needle.data hay.data

/-- Python slice `s[:n]`. -/
def pySlice (s : String) (n : Nat) : String :=
  String.mk (s.data.take n)

/-- The host collaborator (Maya `cmds`), abstracted as pure functions on
an abstract host-state type `σ`:
* `objExists s r`        models `cmds.objExists(ref)`;
* `isLoaded s r`         models `cmds.referenceQuery(ref, isLoaded=True)`;
* `refFileName s r u`    models `cmds.referenceQuery(ref, filename=True,
                         unresolvedName=u)` (and `filename=True` alone
                         for `u = false`);
* `loadReference s p r`  models `cmds.file(p, loadReference=ref)`; the
                         error case carries the exception text, and the
                         host state is taken to be unchanged on error;
* `lsReferences s`       models `cmds.ls(type="reference")`. -/
structure Host (σ : Type) where
  objExists : σ → Ref → Bool
  isLoaded : σ → Ref → Bool
  refFileName : σ → Ref → Bool → String
  loadReference : σ → String → Ref → Except String σ
  lsReferences : σ → List Ref

/-- The filesystem, abstracted:
* `pathExists p` models `os.path.exists(p)`;
* `isDir p`      models `os.path.isdir(p)`;
* `walk p`       models `os.walk(p)` as the visited `(root, files)`
                 pairs in visit order (directory lists are unused by the
                 source); walking a non-directory yields `[]`. -/
structure FS where
  pathExists : String → Bool
  isDir : String → Bool
  walk : String → List (String × List String)

/-- Models `find_file_in_directory` (source lines 160-165). -/
def find_file_in_directory (fs : FS) (searchDir fileName : String) : Option String :=
  (fs.walk searchDir).findSome? fun rf =>
    if fileName ∈ rf.2 then some (joinPath rf.1 fileName) else none

/-- The mutable session state threaded through one `relink_references`
call: the host state plus the `success`/`failed` accumulators, the
global `relink_log`, and the global `relinked_refs` set.  The ghost
field `calls` records each invocation of `Host.loadReference` (in call
order) so that "the host reload was / was not called" is observable; it
influences nothing. -/
structure BatchState (σ : Type) where
  host : σ
  success : List String
  failed : List String
  log : List String
  relinked : List String
  calls : List (String × String)
deriving DecidableEq

/-- A fresh session around a host state (empty log, empty relinked set). -/
def initBatch {σ : Type} (s : σ) : BatchState σ :=
  { host := s, success := [], failed := [], log := [], relinked := [], calls := [] }

/-- Insertion into the `relinked_refs` set. -/
def addSet (r : Ref) (l : List Ref) : List Ref :=
  if r ∈ l then l else l ++ [r]

/-- Record a per-reference failure: one `failed` entry and one
`relink_log` line (the code always appends them together). -/
def recordFailure {σ : Type} (b : BatchState σ) (r : Ref) (reason : String) : BatchState σ :=
  { b with failed := b.failed ++ [r ++ ": " ++ reason],
           log := b.log ++ ["Failed to relink " ++ r ++ ": " ++ reason] }

/-- The shared reload-and-verify tail of both batch branches (source
lines 211-233, duplicated verbatim at 273-295): guard
`if new_path and os.path.exists(new_path)`, call
`cmds.file(new_path, loadReference=ref)`, re-query `isLoaded`, and
record the outcome. -/
def attemptReload {σ : Type} (H : Host σ) (fs : FS) (r : Ref) (newPath : String)
    (b : BatchState σ) : BatchState σ :=
  if newPath ≠ "" ∧ fs.pathExists newPath = true then
    let b := { b with calls := b.calls ++ [(r, newPath)] }
    match H.loadReference b.host newPath r with
    | Except.ok s' =>
      if H.isLoaded s' r then
        let p := H.refFileName s' r false
        { b with host := s',
                 success := b.success ++ [r],
                 log := b.log ++ ["Successfully relinked " ++ r ++ " to " ++ p],
                 relinked := addSet r b.relinked }
      else
        let p := H.refFileName s' r false
        recordFailure { b with host := s' } r
          ("Verification failed (Loaded: False, Path: \x27" ++ p ++ "\x27)")
    | Except.error e =>
      recordFailure b r ("Error: " ++ e)
  else
    recordFailure b r ("Target path does not exist: \x27" ++ newPath ++ "\x27")

/-- One reference of the single-shared-path branch (source lines
189-233); `singlePath` is already stripped and slash-converted. -/
def processRefSingle {σ : Type} (H : Host σ) (fs : FS) (dirOnly : Bool) (singlePath : String)
    (b : BatchState σ) (r : Ref) : BatchState σ :=
  if H.objExists b.host r then
    if dirOnly then
      let originalPath := H.refFileName b.host r true
      let cleanFileName := stripCopySuffix (basename originalPath)
      match find_file_in_directory fs singlePath cleanFileName with
      | some foundPath => attemptReload H fs r foundPath b
      | none =>
        recordFailure b r
          ("Could not find \x27" ++ cleanFileName ++ "\x27 in " ++ singlePath ++ " (and subdirs)")
    else
      attemptReload H fs r singlePath b
  else b

/-- One reference of the per-reference branch (source lines 235-295);
the pair carries the reference and its text-field content. -/
def processRefMapped {σ : Type} (H : Host σ) (fs : FS) (dirOnly convertToForward : Bool)
    (b : BatchState σ) (entry : Ref × String) : BatchState σ :=
  if H.objExists b.host entry.1 then
    let stripped := pyStrip entry.2
    if stripped = "" then b
    else
      let userInput := convert_slashes stripped convertToForward
      if dirOnly then
        if fs.isDir userInput then
          let originalPath := H.refFileName b.host entry.1 true
          let cleanFileName := stripCopySuffix (basename originalPath)
          match find_file_in_directory fs userInput cleanFileName with
          | some foundPath => attemptReload H fs entry.1 foundPath b
          | none =>
            recordFailure b entry.1
              ("Could not find \x27" ++ cleanFileName ++ "\x27 in " ++ userInput ++ " (and subdirs)")
        else
          recordFailure b entry.1 ("Provided directory does not exist: " ++ userInput)
      else
        attemptReload H fs entry.1 userInput b
  else b

/-- The loop `for ref in broken_refs` of the single-path branch. -/
def relinkSingleLoop {σ : Type} (H : Host σ) (fs : FS) (dirOnly : Bool) (singlePath : String)
    (refs : List Ref) (b : BatchState σ) : BatchState σ :=
  refs.foldl (processRefSingle H fs dirOnly singlePath) b

/-- The loop `for ref, text_field in mapping_dict.items()` of the
per-reference branch. -/
def relinkMappedLoop {σ : Type} (H : Host σ) (fs : FS) (dirOnly convertToForward : Bool)
    (mapping : List (Ref × String)) (b : BatchState σ) : BatchState σ :=
  mapping.foldl (processRefMapped H fs dirOnly convertToForward) b

/-- The broken-reference enumeration of `relink_references` (source line
182): every reference whose name does not contain `sharedReferenceNode`
and whose resolved path does not exist on disk. -/
def brokenRefs {σ : Type} (H : Host σ) (fs : FS) (s : σ) : List Ref :=
  (H.lsReferences s).filter fun r =>
    !(containsSub "sharedReferenceNode" r) && !(fs.pathExists (H.refFileName s r false))

/-- Models `relink_references` (source lines 174-295, without the summary
dialog and UI refresh): `singleField` is the content of the
`singlePathField` text field when that field exists. -/
def relink_references {σ : Type} (H : Host σ) (fs : FS)
    (useSinglePath dirOnly convertToForward : Bool)
    (singleField : Option String) (mapping : List (Ref × String))
    (b0 : BatchState σ) : BatchState σ :=
  if useSinglePath then
    match singleField with
    | none => b0
    | some txt =>
      let singlePath := pyStrip txt
      if singlePath = "" then b0
      else
        let singlePath := convert_slashes singlePath convertToForward
        relinkSingleLoop H fs dirOnly singlePath (brokenRefs H fs b0.host) b0
  else
    relinkMappedLoop H fs dirOnly convertToForward mapping b0

/-- The summary message of `relink_references` (source lines 297-301). -/
def buildMessage (success failed : List String) : String :=
  (if success = [] then ""
   else "Successfully relinked:\n" ++ String.intercalate "\n" success ++ "\n\n") ++
  (if failed = [] then ""
   else "Failed to relink:\n" ++ String.intercalate "\n" failed)

/-- The truncation of the summary message (source lines 303-305). -/
def truncateMessage (message : String) : String :=
  if 1000 < message.length then
    pySlice message 1000 ++ "\n...(message truncated)"
  else message

/-! ### A concrete host simulation, for evaluating the model on the
scenarios of the specification. -/

/-- The observable state of one simulated reference node. -/
structure SimRef where
  ex : Bool
  loaded : Bool
  unresolved : String
  resolved : String
deriving DecidableEq

/-- A simulated host state: the reference nodes by name, in `ls` order. -/
abbrev SimState := List (Ref × SimRef)

/-- Look a reference up (a vanished node reports `ex = false`). -/
def simGet (s : SimState) (r : Ref) : SimRef :=
  ((s.find? fun p => p.1 == r).map Prod.snd).getD ⟨false, false, "", ""⟩

/-- Update one reference in place. -/
def simSet (s : SimState) (r : Ref) (f : SimRef → SimRef) : SimState :=
  s.map fun p => if p.1 = r then (p.1, f p.2) else p

/-- A host whose reload call succeeds and leaves the reference loaded at
the requested path. -/
def simHostOk : Host SimState where
  objExists s r := (simGet s r).ex
  isLoaded s r := (simGet s r).loaded
  refFileName s r unresolved :=
    if unresolved then (simGet s r).unresolved else (simGet s r).resolved
  loadReference s p r :=
    Except.ok (simSet s r fun i => { i with loaded := true, resolved := p })
  lsReferences s := s.map Prod.fst

/-- A host whose reload call returns without error but changes nothing:
the reference stays unloaded (the verification-failure scenario). -/
def simHostStuck : Host SimState :=
  { simHostOk with loadReference := fun s _ _ => Except.ok s }

/-- A host whose reload call always raises. -/
def simHostErr : Host SimState :=
  { simHostOk with loadReference := fun _ _ _ => Except.error "Reference load failed" }

/-- The shared library of scenario A: `/lib` holds `/lib/sub/asset.ma`. -/
def fsLib : FS where
  pathExists p := p == "/lib/sub/asset.ma"
  isDir p := p == "/lib" || p == "/lib/sub"
  walk p :=
    if p == "/lib" then [("/lib", []), ("/lib/sub", ["asset.ma"])]
    else if p == "/lib/sub" then [("/lib/sub", ["asset.ma"])]
    else []

/-- A filesystem whose only entry is the directory `/assets`. -/
def fsDirOnly : FS where
  pathExists p := p == "/assets"
  isDir p := p == "/assets"
  walk _ := []

/-- Scenario A exactly as the specification words it: the unresolved
path ends in basename `asset\x7b2\x7d.ma` (decoration before the
extension). -/
def stateSpecA : SimState :=
  [("ref1", ⟨true, false, "/old/asset\x7b2\x7d.ma", "/old/asset\x7b2\x7d.ma"⟩)]

/-- Scenario A with the decoration where the host actually writes it: at
the very end of the basename, `asset.ma\x7b2\x7d`. -/
def stateHostA : SimState :=
  [("ref1", ⟨true, false, "/old/asset.ma\x7b2\x7d", "/old/asset.ma\x7b2\x7d"⟩)]

/-- A reference that is loaded but whose resolved path is absent on
disk. -/
def stateLoadedGone : SimState :=
  [("refL", ⟨true, true, "/old/a.ma", "/gone/a.ma"⟩)]

/-- A loaded reference whose resolved path does exist on disk. -/
def stateLoadedOk : SimState :=
  [("r1", ⟨true, true, "/lib/sub/asset.ma", "/lib/sub/asset.ma"⟩)]

/-- A reference node that no longer exists in the host scene. -/
def stateVanished : SimState :=
  [("ghost", ⟨false, false, "/x.ma", "/x.ma"⟩)]

/-! ### Helper lemmas -/

theorem takeWhile_append_all {p : Char → Bool} :
    ∀ (l₁ l₂ : List Char), (∀ a ∈ l₁, p a = true) →
      (l₁ ++ l₂).takeWhile p = l₁ ++ l₂.takeWhile p := by
  intro l₁
  induction l₁ with
  | nil => intro l₂ _; simp
  | cons a t ih =>
    intro l₂ h
    have ha : p a = true := h a (List.mem_cons_self a t)
    simp only [List.cons_append, List.takeWhile_cons, ha, if_true]
    rw [ih l₂ fun x hx => h x (List.mem_cons_of_mem a hx)]

theorem dropWhile_append_all {p : Char → Bool} :
    ∀ (l₁ l₂ : List Char), (∀ a ∈ l₁, p a = true) →
      (l₁ ++ l₂).dropWhile p = l₂.dropWhile p := by
  intro l₁
  induction l₁ with
  | nil => intro l₂ _; simp
  | cons a t ih =>
    intro l₂ h
    have ha : p a = true := h a (List.mem_cons_self a t)
    simp only [List.cons_append, List.dropWhile_cons, ha, if_true]
    exact ih l₂ fun x hx => h x (List.mem_cons_of_mem a hx)

theorem mem_takeWhile_true {p : Char → Bool} :
    ∀ (l : List Char) (a : Char), a ∈ l.takeWhile p → p a = true := by
  intro l
  induction l with
  | nil => intro a h; simp [List.takeWhile_nil] at h
  | cons b t ih =>
    intro a h
    rw [List.takeWhile_cons] at h
    by_cases hb : p b
    · simp only [hb, if_true, List.mem_cons] at h
      rcases h with rfl | h
      · exact hb
      · exact ih a h
    · simp [hb] at h

theorem string_data_append (s t : String) : (s ++ t).data = s.data ++ t.data := by
  cases s; cases t; rfl

theorem string_ne_empty_iff_data (s : String) : s ≠ "" ↔ s.data ≠ [] :=
  not_congr String.ext_iff

theorem string_mk_data (s : String) : String.mk s.data = s := rfl

theorem lbrace_str_data : ("\x7b" : String).data = [lbrace] := by decide

theorem rbrace_str_data : ("\x7d" : String).data = [rbrace] := by decide

/-- Completeness of the copy-suffix matcher: a filename of the matching
shape is recognized and yields its base group. -/
theorem copySuffixCore_complete (base ds : List Char)
    (hb : base ≠ []) (hd : ds ≠ []) (hdig : ∀ c ∈ ds, c.isDigit = true)
    (hnl : '\n' ∉ base) :
    copySuffixCore ((base ++ lbrace :: (ds ++ [rbrace])).reverse) = some base := by
  have hrev : (base ++ lbrace :: (ds ++ [rbrace])).reverse
      = rbrace :: (ds.reverse ++ lbrace :: base.reverse) := by
    simp
  rw [hrev]
  have hdigrev : ∀ a ∈ ds.reverse, Char.isDigit a = true := fun a ha =>
    hdig a (List.mem_reverse.mp ha)
  have hlb : Char.isDigit lbrace = false := by decide
  have htw : (ds.reverse ++ lbrace :: base.reverse).takeWhile Char.isDigit = ds.reverse := by
    rw [takeWhile_append_all _ _ hdigrev]
    simp [List.takeWhile_cons, hlb]
  have hdw : (ds.reverse ++ lbrace :: base.reverse).dropWhile Char.isDigit
      = lbrace :: base.reverse := by
    rw [dropWhile_append_all _ _ hdigrev]
    simp [List.dropWhile_cons, hlb]
  simp only [copySuffixCore]
  rw [if_pos trivial, htw, hdw]
  split
  next heq => exact absurd heq (by simp)
  next d baseRev heq =>
    injection heq with h1 h2
    subst h1; subst h2
    rw [if_pos ⟨rfl, by simpa using hd, by simpa using hb,
      by simpa [List.mem_reverse] using hnl⟩]
    simp

/-- Soundness of the copy-suffix matcher: a successful match exhibits
the base-and-digits decomposition of the input. -/
theorem copySuffixCore_sound (l b : List Char) (h : copySuffixCore l = some b) :
    ∃ ds : List Char, (∀ c ∈ ds, c.isDigit = true) ∧ ds ≠ [] ∧ b ≠ [] ∧ '\n' ∉ b ∧
      l = (b ++ lbrace :: (ds ++ [rbrace])).reverse := by
  match l with
  | [] => simp [copySuffixCore] at h
  | c :: rest =>
    simp only [copySuffixCore] at h
    split at h
    case isFalse => simp at h
    case isTrue hc =>
      split at h
      next => simp at h
      next d baseRev hdw =>
        split at h
        case isFalse => simp at h
        case isTrue hcond =>
          obtain ⟨hd1, hd2, hd3, hd4⟩ := hcond
          have hb : b = baseRev.reverse := (Option.some_inj.mp h).symm
          refine ⟨(rest.takeWhile Char.isDigit).reverse, ?_, ?_, ?_, ?_, ?_⟩
          · intro x hx; exact mem_takeWhile_true _ x (List.mem_reverse.mp hx)
          · simpa using hd2
          · rw [hb]; simpa using hd3
          · rw [hb]; simpa [List.mem_reverse] using hd4
          · have hrest : rest = rest.takeWhile Char.isDigit ++ (lbrace :: baseRev) := by
              conv_lhs => rw [← List.takeWhile_append_dropWhile (p := Char.isDigit) (l := rest)]
              rw [hdw, hd1]
            rw [hb, hc, hrest]
            simp
            rw [takeWhile_append_all _ _ fun a ha => mem_takeWhile_true _ a ha]
            simp [List.takeWhile_cons, show Char.isDigit lbrace = false from by decide]

/-- For a newline-free filename, `stripFinalNewline` is the identity. -/
theorem stripFinalNewline_of_no_newline (l : List Char) (h : '\n' ∉ l) :
    stripFinalNewline l.reverse = l.reverse := by
  rcases hrev : l.reverse with _ | ⟨c, t⟩
  · simp [stripFinalNewline]
  · have hcne : ¬(c = '\n') := by
      intro hceq
      apply h
      have hmem : c ∈ l.reverse := by rw [hrev]; exact List.mem_cons_self c t
      rw [← hceq]
      exact List.mem_reverse.mp hmem
    simp [stripFinalNewline, hcne]

/-! ### Claim theorems -/

/-- C1 counterexample: the claim states that a filename that is entirely
the decoration with an empty base still strips to the (empty) base, and
that every filename ending in base-plus-decoration strips to that base.
The code returns `"\x7b3\x7d"` unchanged (the regex base group `(.+)`
needs at least one character), and returns `"a\nb\x7b1\x7d"` unchanged
(`.` does not match the newline inside the base portion), contradicting
both readings. -/
theorem stripCopySuffix_literal_decoration_counterexample :
    stripCopySuffix "\x7b3\x7d" = "\x7b3\x7d" ∧ stripCopySuffix "\x7b3\x7d" ≠ "" ∧
    stripCopySuffix "a\nb\x7b1\x7d" = "a\nb\x7b1\x7d" ∧
    stripCopySuffix "a\nb\x7b1\x7d" ≠ "a\nb" := by
  refine ⟨by decide, by decide, by decide, by decide⟩

/-- C1 (amended): for every newline-free filename `F`, if `F` ends with
a NON-EMPTY base portion immediately followed by a brace-enclosed
nonempty digit string then the suffix-stripping step returns the
(unique) base portion, and if `F` is not of that shape it returns `F`
unchanged.  A filename that is entirely the decoration (empty base) does
not match and is returned unchanged. -/
theorem stripCopySuffix_correct (f : String) (hf : '\n' ∉ f.data) :
    (∀ base ds : String, matchesDecoration f base ds → stripCopySuffix f = base) ∧
    ((∀ base ds : String, ¬ matchesDecoration f base ds) → stripCopySuffix f = f) := by
  constructor
  · rintro base ds ⟨hb, hd, hdig, hf_eq⟩
    have hdata : f.data = base.data ++ lbrace :: (ds.data ++ [rbrace]) := by
      rw [hf_eq]
      simp [string_data_append, lbrace_str_data, rbrace_str_data]
      exact ⟨by decide, by decide⟩
    have hb' : base.data ≠ [] := (string_ne_empty_iff_data base).mp hb
    have hd' : ds.data ≠ [] := (string_ne_empty_iff_data ds).mp hd
    have hnl : '\n' ∉ base.data := fun hmem =>
      hf (by rw [hdata]; exact List.mem_append_left _ hmem)
    have hcore := copySuffixCore_complete base.data ds.data hb' hd' hdig hnl
    have hsfn := stripFinalNewline_of_no_newline f.data hf
    unfold stripCopySuffix copySuffixSplit
    rw [hsfn, hdata, hcore]
    simp [string_mk_data]
  · intro hno
    rcases hsplit : copySuffixSplit f with _ | b
    · unfold stripCopySuffix; rw [hsplit]; rfl
    · exfalso
      unfold copySuffixSplit at hsplit
      rw [stripFinalNewline_of_no_newline f.data hf] at hsplit
      rcases hcore : copySuffixCore f.data.reverse with _ | bl
      · rw [hcore] at hsplit; simp at hsplit
      · obtain ⟨ds, hdig, hdne, hbne, hnl, hl⟩ := copySuffixCore_sound _ _ hcore
        have hfdata : f.data = bl ++ lbrace :: (ds ++ [rbrace]) :=
          List.reverse_injective hl
        apply hno (String.mk bl) (String.mk ds)
        refine ⟨?_, ?_, ?_, ?_⟩
        · exact (string_ne_empty_iff_data _).mpr hbne
        · exact (string_ne_empty_iff_data _).mpr hdne
        · exact hdig
        · apply String.ext
          rw [hfdata]
          simp [string_data_append, lbrace_str_data, rbrace_str_data]
          exact ⟨by decide, by decide⟩

/-- C1 witness: the host-style decorated name `asset.ma\x7b2\x7d` strips
to `asset.ma`. -/
theorem stripCopySuffix_correct_witness :
    stripCopySuffix "asset.ma\x7b2\x7d" = "asset.ma" :=
  (stripCopySuffix_correct "asset.ma\x7b2\x7d" (by decide)).1 "asset.ma" "2"
    ⟨by decide, by decide, by decide, by decide⟩

/-- Every exit of `recordFailure` extends `failed` and `log` on the
right and touches nothing else. -/
theorem recordFailure_extends {σ : Type} (b : BatchState σ) (r : Ref) (reason : String) :
    ∃ t u, (recordFailure b r reason).failed = b.failed ++ t ∧
      (recordFailure b r reason).log = b.log ++ u :=
  ⟨_, _, rfl, rfl⟩

/-- Branch equation for `attemptReload`: the candidate path fails the
existence guard, so the reload is not attempted. -/
theorem attemptReload_notfound {σ : Type} (H : Host σ) (fs : FS) (r : Ref) (p : String)
    (b : BatchState σ) (h : ¬(p ≠ "" ∧ fs.pathExists p = true)) :
    attemptReload H fs r p b
      = recordFailure b r ("Target path does not exist: \x27" ++ p ++ "\x27") := by
  unfold attemptReload
  rw [if_neg h]

/-- Branch equation for `attemptReload`: the host reload call raises. -/
theorem attemptReload_error {σ : Type} (H : Host σ) (fs : FS) (r : Ref) (p : String)
    (b : BatchState σ) (e : String) (hc : p ≠ "" ∧ fs.pathExists p = true)
    (hload : H.loadReference b.host p r = Except.error e) :
    attemptReload H fs r p b
      = recordFailure { b with calls := b.calls ++ [(r, p)] } r ("Error: " ++ e) := by
  unfold attemptReload
  rw [if_pos hc]
  simp only [hload]

/-- Branch equation for `attemptReload`: the reload returns and the
reference is then observed loaded. -/
theorem attemptReload_ok_loaded {σ : Type} (H : Host σ) (fs : FS) (r : Ref) (p : String)
    (b : BatchState σ) (s' : σ) (hc : p ≠ "" ∧ fs.pathExists p = true)
    (hload : H.loadReference b.host p r = Except.ok s') (hl : H.isLoaded s' r = true) :
    attemptReload H fs r p b
      = { b with host := s', success := b.success ++ [r],
                 log := b.log ++ ["Successfully relinked " ++ r ++ " to "
                   ++ H.refFileName s' r false],
                 relinked := addSet r b.relinked,
                 calls := b.calls ++ [(r, p)] } := by
  unfold attemptReload
  rw [if_pos hc]
  simp only [hload, hl, if_true]

/-- Branch equation for `attemptReload`: the reload returns but the
reference is still not observed loaded. -/
theorem attemptReload_ok_unloaded {σ : Type} (H : Host σ) (fs : FS) (r : Ref) (p : String)
    (b : BatchState σ) (s' : σ) (hc : p ≠ "" ∧ fs.pathExists p = true)
    (hload : H.loadReference b.host p r = Except.ok s') (hl : H.isLoaded s' r = false) :
    attemptReload H fs r p b
      = recordFailure { b with host := s', calls := b.calls ++ [(r, p)] } r
          ("Verification failed (Loaded: False, Path: \x27"
            ++ H.refFileName s' r false ++ "\x27)") := by
  unfold attemptReload
  rw [if_pos hc]
  simp only [hload, hl]
  rfl

/-- Every exit of `attemptReload` extends `failed` and `log` on the
right: outcomes and log lines are only ever appended. -/
theorem attemptReload_extends {σ : Type} (H : Host σ) (fs : FS) (r : Ref) (p : String)
    (b : BatchState σ) :
    ∃ t u, (attemptReload H fs r p b).failed = b.failed ++ t ∧
      (attemptReload H fs r p b).log = b.log ++ u := by
  by_cases hc : p ≠ "" ∧ fs.pathExists p = true
  · rcases hload : H.loadReference b.host p r with e | s'
    · rw [attemptReload_error H fs r p b e hc hload]
      exact ⟨_, _, rfl, rfl⟩
    · by_cases hl : H.isLoaded s' r = true
      · rw [attemptReload_ok_loaded H fs r p b s' hc hload hl]
        exact ⟨[], _, by simp, rfl⟩
      · rw [attemptReload_ok_unloaded H fs r p b s' hc hload (by simpa using hl)]
        exact ⟨_, _, rfl, rfl⟩
  · rw [attemptReload_notfound H fs r p b hc]
    exact ⟨_, _, rfl, rfl⟩

/-- Branch equation for `processRefSingle`: the directory search misses. -/
theorem processRefSingle_notfound {σ : Type} (H : Host σ) (fs : FS) (singlePath : String)
    (b : BatchState σ) (r : Ref) (hobj : H.objExists b.host r = true)
    (hff : find_file_in_directory fs singlePath
      (stripCopySuffix (basename (H.refFileName b.host r true))) = none) :
    processRefSingle H fs true singlePath b r
      = recordFailure b r
          ("Could not find \x27" ++ stripCopySuffix (basename (H.refFileName b.host r true))
            ++ "\x27 in " ++ singlePath ++ " (and subdirs)") := by
  unfold processRefSingle
  simp only [hobj, if_true, hff]

/-- Branch equation for `processRefSingle`: the directory search hits. -/
theorem processRefSingle_found {σ : Type} (H : Host σ) (fs : FS) (singlePath : String)
    (b : BatchState σ) (r : Ref) (q : String) (hobj : H.objExists b.host r = true)
    (hff : find_file_in_directory fs singlePath
      (stripCopySuffix (basename (H.refFileName b.host r true))) = some q) :
    processRefSingle H fs true singlePath b r = attemptReload H fs r q b := by
  unfold processRefSingle
  simp only [hobj, if_true, hff]

/-- Branch equation for `processRefSingle`: exact-file mode hands the
shared path straight to the reload step. -/
theorem processRefSingle_exactfile {σ : Type} (H : Host σ) (fs : FS) (singlePath : String)
    (b : BatchState σ) (r : Ref) (hobj : H.objExists b.host r = true) :
    processRefSingle H fs false singlePath b r = attemptReload H fs r singlePath b := by
  unfold processRefSingle
  simp only [hobj, if_true, Bool.false_eq_true, if_false]

/-- Every exit of `processRefSingle` extends `failed` and `log` on the
right. -/
theorem processRefSingle_extends {σ : Type} (H : Host σ) (fs : FS) (dirOnly : Bool)
    (singlePath : String) (b : BatchState σ) (r : Ref) :
    ∃ t u, (processRefSingle H fs dirOnly singlePath b r).failed = b.failed ++ t ∧
      (processRefSingle H fs dirOnly singlePath b r).log = b.log ++ u := by
  by_cases hobj : H.objExists b.host r = true
  · cases dirOnly with
    | false =>
      rw [processRefSingle_exactfile H fs singlePath b r hobj]
      exact attemptReload_extends H fs r singlePath b
    | true =>
      rcases hff : find_file_in_directory fs singlePath
          (stripCopySuffix (basename (H.refFileName b.host r true))) with _ | q
      · rw [processRefSingle_notfound H fs singlePath b r hobj hff]
        exact ⟨_, _, rfl, rfl⟩
      · rw [processRefSingle_found H fs singlePath b r q hobj hff]
        exact attemptReload_extends H fs r q b
  · have hskip : processRefSingle H fs dirOnly singlePath b r = b := by
      unfold processRefSingle
      rw [if_neg hobj]
    rw [hskip]
    exact ⟨[], [], by simp, by simp⟩

/-- The single-path loop only ever appends to `failed` and `log`: no
recorded outcome is ever dropped, whatever happens to later
references. -/
theorem relinkSingleLoop_extends {σ : Type} (H : Host σ) (fs : FS) (dirOnly : Bool)
    (singlePath : String) :
    ∀ (refs : List Ref) (b : BatchState σ),
      ∃ t u, (relinkSingleLoop H fs dirOnly singlePath refs b).failed = b.failed ++ t ∧
        (relinkSingleLoop H fs dirOnly singlePath refs b).log = b.log ++ u := by
  intro refs
  induction refs with
  | nil => intro b; exact ⟨[], [], by simp [relinkSingleLoop], by simp [relinkSingleLoop]⟩
  | cons r rest ih =>
    intro b
    obtain ⟨t1, u1, h1, h2⟩ := processRefSingle_extends H fs dirOnly singlePath b r
    obtain ⟨t2, u2, h3, h4⟩ := ih (processRefSingle H fs dirOnly singlePath b r)
    have hstep : relinkSingleLoop H fs dirOnly singlePath (r :: rest) b
        = relinkSingleLoop H fs dirOnly singlePath rest
            (processRefSingle H fs dirOnly singlePath b r) := rfl
    refine ⟨t1 ++ t2, u1 ++ u2, ?_, ?_⟩
    · rw [hstep, h3, h1, List.append_assoc]
    · rw [hstep, h4, h2, List.append_assoc]

/-- C2 counterexample: in SingleSharedPath+DirectoryOnly mode, a broken
reference whose unresolved basename is `asset\x7b2\x7d.ma` (decoration
before the extension, as the claim words it) does NOT strip to
`asset.ma`: `copy_suffix_pattern` is anchored at the end of the string,
so the search looks for the undecorated literal name, finds nothing in
`/lib`, records a not-found failure, and never calls the host reload —
the outcome is not Success. -/
theorem scenarioA_spec_filename_counterexample :
    (relink_references simHostOk fsLib true true true (some "/lib") []
        (initBatch stateSpecA)).success = [] ∧
    (relink_references simHostOk fsLib true true true (some "/lib") []
        (initBatch stateSpecA)).calls = [] ∧
    (relink_references simHostOk fsLib true true true (some "/lib") []
        (initBatch stateSpecA)).failed
      = ["ref1: Could not find \x27asset\x7b2\x7d.ma\x27 in /lib (and subdirs)"] := by
  refine ⟨by decide, by decide, by decide⟩

/-- C2 (amended): same scenario, with the copy-suffix decoration at the
very end of the basename (`asset.ma\x7b2\x7d`), the form the host
produces and the form `copy_suffix_pattern` recognizes: resolution
extracts the clean name `asset.ma`, the directory search yields
`/lib/sub/asset.ma`, the host reload is called with exactly that path,
and the outcome is Success. -/
theorem scenarioA_hostStyle_success :
    stripCopySuffix "asset.ma\x7b2\x7d" = "asset.ma" ∧
    (relink_references simHostOk fsLib true true true (some "/lib") []
        (initBatch stateHostA)).success = ["ref1"] ∧
    (relink_references simHostOk fsLib true true true (some "/lib") []
        (initBatch stateHostA)).calls = [("ref1", "/lib/sub/asset.ma")] ∧
    (relink_references simHostOk fsLib true true true (some "/lib") []
        (initBatch stateHostA)).failed = [] ∧
    (relink_references simHostOk fsLib true true true (some "/lib") []
        (initBatch stateHostA)).log
      = ["Successfully relinked ref1 to /lib/sub/asset.ma"] := by
  refine ⟨by decide, by decide, by decide, by decide, by decide⟩

/-- C3 counterexample: the enumeration feeding the single-path batch is
NOT a loaded-state filter: a reference that reports `isLoaded = true`
but whose resolved path is missing on disk is still enumerated as
broken and still produces an outcome, so re-running the batch over it
does not yield an empty outcome sequence. -/
theorem loaded_ref_still_enumerated_counterexample :
    simHostOk.isLoaded stateLoadedGone "refL" = true ∧
    brokenRefs simHostOk fsLib stateLoadedGone = ["refL"] ∧
    (relink_references simHostOk fsLib true true true (some "/lib") []
        (initBatch stateLoadedGone)).failed
      = ["refL: Could not find \x27a.ma\x27 in /lib (and subdirs)"] := by
  refine ⟨by decide, by decide, by decide⟩

/-- C3 (amended): the broken-reference enumeration that feeds the
single-path batch excludes references by a PATH-EXISTENCE filter (the
resolved path exists on disk), not by a loaded-state filter.  Hence
re-running the batch over references whose resolved paths now all exist
(as after a successful relink) enumerates nothing and leaves the
session state — outcomes, log, relinked set — untouched. -/
theorem relink_skips_existing_resolved_paths {σ : Type} (H : Host σ) (fs : FS)
    (dirOnly convertToForward : Bool) (txt : String) (mapping : List (Ref × String))
    (b0 : BatchState σ)
    (h : ∀ r ∈ H.lsReferences b0.host, fs.pathExists (H.refFileName b0.host r false) = true) :
    brokenRefs H fs b0.host = [] ∧
    relink_references H fs true dirOnly convertToForward (some txt) mapping b0 = b0 := by
  have hb : brokenRefs H fs b0.host = [] := by
    unfold brokenRefs
    rw [List.filter_eq_nil_iff]
    intro r hr
    simp [h r hr]
  refine ⟨hb, ?_⟩
  unfold relink_references
  simp [hb, relinkSingleLoop]

/-- C3 witness: a session whose only reference is loaded at an existing
path enumerates no broken references, and the batch is a no-op. -/
theorem relink_skips_existing_resolved_paths_witness :
    brokenRefs simHostOk fsLib stateLoadedOk = [] ∧
    relink_references simHostOk fsLib true true true (some "/lib") []
        (initBatch stateLoadedOk) = initBatch stateLoadedOk :=
  relink_skips_existing_resolved_paths simHostOk fsLib true true "/lib" []
    (initBatch stateLoadedOk) (by decide)

/-- C4: when the host reload call returns without raising but the
subsequent loaded-state query reports not loaded, the batch records a
verification-failed failure outcome — not a success — and the reference
is not added to the relinked-this-session set; and conversely the
relinked set only ever grows on an observed loaded state after reload,
in which case the reference is recorded as a success. -/
theorem relink_verification_failure_guard {σ : Type} (H : Host σ) (fs : FS) (r : Ref) :
    (∀ (p : String) (b : BatchState σ) (s' : σ), p ≠ "" → fs.pathExists p = true →
      H.loadReference b.host p r = Except.ok s' → H.isLoaded s' r = false →
      (attemptReload H fs r p b).failed
          = b.failed ++ [r ++ ": " ++ ("Verification failed (Loaded: False, Path: \x27"
              ++ H.refFileName s' r false ++ "\x27)")] ∧
        (attemptReload H fs r p b).success = b.success ∧
        (attemptReload H fs r p b).relinked = b.relinked) ∧
    (∀ (p : String) (b : BatchState σ), (attemptReload H fs r p b).relinked ≠ b.relinked →
      ∃ s', H.loadReference b.host p r = Except.ok s' ∧ H.isLoaded s' r = true ∧
        (attemptReload H fs r p b).success = b.success ++ [r]) := by
  constructor
  · intro p b s' hp hex hok hnl
    rw [attemptReload_ok_unloaded H fs r p b s' ⟨hp, hex⟩ hok hnl]
    exact ⟨rfl, rfl, rfl⟩
  · intro p b hne
    by_cases hc : p ≠ "" ∧ fs.pathExists p = true
    · rcases hload : H.loadReference b.host p r with e | s'
      · rw [attemptReload_error H fs r p b e hc hload] at hne
        exact absurd rfl hne
      · by_cases hl : H.isLoaded s' r = true
        · refine ⟨s', rfl, hl, ?_⟩
          rw [attemptReload_ok_loaded H fs r p b s' hc hload hl]
        · rw [attemptReload_ok_unloaded H fs r p b s' hc hload (by simpa using hl)] at hne
          exact absurd rfl hne
    · rw [attemptReload_notfound H fs r p b hc] at hne
      exact absurd rfl hne

/-- C4 witness: a host whose reload returns without error but leaves
the reference unloaded yields the verification failure, no success, and
an empty relinked set. -/
theorem relink_verification_failure_guard_witness :
    (attemptReload simHostStuck fsLib "ref1" "/lib/sub/asset.ma"
        (initBatch stateHostA)).failed
      = ["ref1: Verification failed (Loaded: False, Path: \x27/old/asset.ma\x7b2\x7d\x27)"] ∧
    (attemptReload simHostStuck fsLib "ref1" "/lib/sub/asset.ma"
        (initBatch stateHostA)).success = [] ∧
    (attemptReload simHostStuck fsLib "ref1" "/lib/sub/asset.ma"
        (initBatch stateHostA)).relinked = [] := by
  obtain ⟨h1, h2, h3⟩ := (relink_verification_failure_guard simHostStuck fsLib "ref1").1
    "/lib/sub/asset.ma" (initBatch stateHostA) stateHostA (by decide) (by decide) rfl rfl
  refine ⟨?_, ?_, ?_⟩
  · rw [h1]; decide
  · rw [h2]; rfl
  · rw [h3]; rfl

/-- C5: in DirectoryOnly mode with per-reference input, a user path
that is not an existing directory fails with the invalid-directory
reason before any directory search is attempted (the conclusion holds
for every filesystem value, whatever its `walk` does); whereas in
SingleSharedPath+DirectoryOnly mode there is no such pre-check and a
non-directory input (whose walk yields nothing) instead produces the
not-found-in-directory failure from the searcher. -/
theorem directory_precheck_asymmetry {σ : Type} (H : Host σ) (fs : FS)
    (convertToForward : Bool) (b : BatchState σ) (r : Ref) :
    (∀ input : String, H.objExists b.host r = true → pyStrip input ≠ "" →
      fs.isDir (convert_slashes (pyStrip input) convertToForward) = false →
      processRefMapped H fs true convertToForward b (r, input)
        = recordFailure b r
            ("Provided directory does not exist: "
              ++ convert_slashes (pyStrip input) convertToForward)) ∧
    (∀ singlePath : String, H.objExists b.host r = true → fs.isDir singlePath = false →
      fs.walk singlePath = [] →
      processRefSingle H fs true singlePath b r
        = recordFailure b r
            ("Could not find \x27" ++ stripCopySuffix (basename (H.refFileName b.host r true))
              ++ "\x27 in " ++ singlePath ++ " (and subdirs)")) := by
  constructor
  · intro input hobj hne hdir
    unfold processRefMapped
    simp only [hobj, if_true, hne, hdir, Bool.false_eq_true, if_false, ite_false]
  · intro singlePath hobj _ hwalk
    have hff : find_file_in_directory fs singlePath
        (stripCopySuffix (basename (H.refFileName b.host r true))) = none := by
      unfold find_file_in_directory
      rw [hwalk]
      rfl
    exact processRefSingle_notfound H fs singlePath b r hobj hff

/-- C5 witness: `/nope` is not a directory, so per-reference
DirectoryOnly input fails with the invalid-directory reason, while the
single shared path `/nowhere` fails through the searcher. -/
theorem directory_precheck_asymmetry_witness :
    processRefMapped simHostOk fsLib true true (initBatch stateHostA) ("ref1", "/nope")
      = recordFailure (initBatch stateHostA) "ref1"
          ("Provided directory does not exist: /nope") ∧
    processRefSingle simHostOk fsLib true "/nowhere" (initBatch stateHostA) "ref1"
      = recordFailure (initBatch stateHostA) "ref1"
          ("Could not find \x27asset.ma\x27 in /nowhere (and subdirs)") := by
  constructor
  · have h := (directory_precheck_asymmetry simHostOk fsLib true
      (initBatch stateHostA) "ref1").1 "/nope" (by decide) (by decide) (by decide)
    rw [h]; decide
  · have h := (directory_precheck_asymmetry simHostOk fsLib true
      (initBatch stateHostA) "ref1").2 "/nowhere" (by decide) (by decide) (by decide)
    rw [h]; decide

/-- C6 counterexample: the pre-reload guard is `os.path.exists`, not an
is-a-file check: a candidate that exists as a DIRECTORY passes the
guard and the host reload is called with it (here in
PerReferenceInput+ExactFile mode with the directory `/assets`),
contradicting the claim that the batch verifies the candidate exists as
a file before any reload. -/
theorem existence_check_not_file_check_counterexample :
    fsDirOnly.pathExists "/assets" = true ∧
    fsDirOnly.isDir "/assets" = true ∧
    (relink_references simHostOk fsDirOnly false false true none [("r1", "/assets")]
        (initBatch stateLoadedOk)).calls = [("r1", "/assets")] ∧
    (relink_references simHostOk fsDirOnly false false true none [("r1", "/assets")]
        (initBatch stateLoadedOk)).success = ["r1"] := by
  refine ⟨by decide, by decide, by decide, by decide⟩

/-- C6 (amended): before any host reload the batch verifies that the
candidate path EXISTS on disk (`os.path.exists` — file or directory
alike): a candidate that does not exist yields the
target-path-missing failure with no reload call, and conversely the
reload is only ever called for a nonempty candidate that exists.  In
particular, ExactFile mode with a nonexistent user path yields that
failure and no reload call. -/
theorem relink_existence_gate {σ : Type} (H : Host σ) (fs : FS) (r : Ref) :
    (∀ (p : String) (b : BatchState σ), fs.pathExists p = false →
      attemptReload H fs r p b
        = recordFailure b r ("Target path does not exist: \x27" ++ p ++ "\x27")) ∧
    (∀ (p : String) (b : BatchState σ), (attemptReload H fs r p b).calls ≠ b.calls →
      p ≠ "" ∧ fs.pathExists p = true) := by
  constructor
  · intro p b hex
    apply attemptReload_notfound
    intro hcon
    simp [hex] at hcon
  · intro p b hne
    by_cases hc : p ≠ "" ∧ fs.pathExists p = true
    · exact hc
    · rw [attemptReload_notfound H fs r p b hc] at hne
      exact absurd rfl hne

/-- C6 witness: scenario C — ExactFile mode with the nonexistent
`/tmp/doesnotexist.ma` records the target-path-missing failure and the
reload-call trace stays empty. -/
theorem relink_existence_gate_witness :
    attemptReload simHostOk fsLib "r1" "/tmp/doesnotexist.ma" (initBatch stateLoadedOk)
      = recordFailure (initBatch stateLoadedOk) "r1"
          ("Target path does not exist: \x27/tmp/doesnotexist.ma\x27") ∧
    (attemptReload simHostOk fsLib "r1" "/tmp/doesnotexist.ma"
        (initBatch stateLoadedOk)).calls = [] := by
  have h := (relink_existence_gate simHostOk fsLib "r1").1 "/tmp/doesnotexist.ma"
    (initBatch stateLoadedOk) (by decide)
  constructor
  · rw [h]; decide
  · rw [h]; rfl

/-- C7: a failure for one reference never aborts the single-path batch:
a host-side reload error becomes a per-reference failure outcome and
log entry carrying the host error text, after which the loop continues
with the remaining references exactly as it would have; and over any
reference sequence the loop only ever appends to the outcome and log
sequences, so no recorded error is lost. -/
theorem relink_host_error_nonfatal {σ : Type} (H : Host σ) (fs : FS) (singlePath : String) :
    (∀ (r : Ref) (rest : List Ref) (b : BatchState σ) (e : String),
      H.objExists b.host r = true → singlePath ≠ "" → fs.pathExists singlePath = true →
      H.loadReference b.host singlePath r = Except.error e →
      relinkSingleLoop H fs false singlePath (r :: rest) b
        = relinkSingleLoop H fs false singlePath rest
            (recordFailure { b with calls := b.calls ++ [(r, singlePath)] } r
              ("Error: " ++ e))) ∧
    (∀ (dirOnly : Bool) (refs : List Ref) (b : BatchState σ),
      ∃ t u, (relinkSingleLoop H fs dirOnly singlePath refs b).failed = b.failed ++ t ∧
        (relinkSingleLoop H fs dirOnly singlePath refs b).log = b.log ++ u) := by
  constructor
  · intro r rest b e hobj hp hex hload
    have hstep : relinkSingleLoop H fs false singlePath (r :: rest) b
        = relinkSingleLoop H fs false singlePath rest
            (processRefSingle H fs false singlePath b r) := rfl
    rw [hstep, processRefSingle_exactfile H fs singlePath b r hobj,
      attemptReload_error H fs r singlePath b e ⟨hp, hex⟩ hload]
  · intro dirOnly refs b
    exact relinkSingleLoop_extends H fs dirOnly singlePath refs b

/-- C7 witness: a host whose reload raises `Reference load failed`
leaves a failure outcome for `ref1` and hands the loop on to the rest
of the sequence, and the loop is append-only on outcomes and log. -/
theorem relink_host_error_nonfatal_witness :
    relinkSingleLoop simHostErr fsLib false "/lib/sub/asset.ma" ["ref1"]
        (initBatch stateHostA)
      = relinkSingleLoop simHostErr fsLib false "/lib/sub/asset.ma" []
          (recordFailure
            { initBatch stateHostA with calls := [("ref1", "/lib/sub/asset.ma")] }
            "ref1" ("Error: Reference load failed")) ∧
    (∃ t u, (relinkSingleLoop simHostErr fsLib true "/lib" ["ref1"]
          (initBatch stateHostA)).failed = (initBatch stateHostA).failed ++ t ∧
      (relinkSingleLoop simHostErr fsLib true "/lib" ["ref1"]
          (initBatch stateHostA)).log = (initBatch stateHostA).log ++ u) := by
  constructor
  · have h := (relink_host_error_nonfatal simHostErr fsLib "/lib/sub/asset.ma").1 "ref1" []
      (initBatch stateHostA) "Reference load failed" (by decide) (by decide) (by decide) rfl
    rw [h]
    decide
  · exact (relink_host_error_nonfatal simHostErr fsLib "/lib").2 true ["ref1"]
      (initBatch stateHostA)

/-- C8: a reference whose handle the host reports as no longer existing
is skipped silently by both batch branches: the session state —
outcomes, log, relinked set, host — is left exactly unchanged and the
loop continues with the remaining references. -/
theorem relink_skips_vanished_handle {σ : Type} (H : Host σ) (fs : FS)
    (dirOnly convertToForward : Bool) (singlePath input : String) (rest : List Ref)
    (mrest : List (Ref × String)) (b : BatchState σ) (r : Ref)
    (h : H.objExists b.host r = false) :
    processRefSingle H fs dirOnly singlePath b r = b ∧
    processRefMapped H fs dirOnly convertToForward b (r, input) = b ∧
    relinkSingleLoop H fs dirOnly singlePath (r :: rest) b
      = relinkSingleLoop H fs dirOnly singlePath rest b ∧
    relinkMappedLoop H fs dirOnly convertToForward ((r, input) :: mrest) b
      = relinkMappedLoop H fs dirOnly convertToForward mrest b := by
  have h1 : processRefSingle H fs dirOnly singlePath b r = b := by
    unfold processRefSingle
    simp [h]
  have h2 : processRefMapped H fs dirOnly convertToForward b (r, input) = b := by
    unfold processRefMapped
    simp [h]
  refine ⟨h1, h2, ?_, ?_⟩
  · show relinkSingleLoop H fs dirOnly singlePath rest
        (processRefSingle H fs dirOnly singlePath b r) = _
    rw [h1]
  · show relinkMappedLoop H fs dirOnly convertToForward mrest
        (processRefMapped H fs dirOnly convertToForward b (r, input)) = _
    rw [h2]

/-- C8 witness: the vanished node `ghost` is skipped by both branches
with the session state untouched. -/
theorem relink_skips_vanished_handle_witness :
    processRefSingle simHostOk fsLib true "/lib" (initBatch stateVanished) "ghost"
      = initBatch stateVanished ∧
    processRefMapped simHostOk fsLib true true (initBatch stateVanished) ("ghost", "/lib")
      = initBatch stateVanished ∧
    relinkSingleLoop simHostOk fsLib true "/lib" ["ghost"] (initBatch stateVanished)
      = relinkSingleLoop simHostOk fsLib true "/lib" [] (initBatch stateVanished) ∧
    relinkMappedLoop simHostOk fsLib true true [("ghost", "/lib")] (initBatch stateVanished)
      = relinkMappedLoop simHostOk fsLib true true [] (initBatch stateVanished) :=
  relink_skips_vanished_handle simHostOk fsLib true true "/lib" "/lib" [] []
    (initBatch stateVanished) "ghost" (by decide)

/-- C9: the summary presented after a batch is the rendered summary
unmodified when it has at most 1000 characters, and otherwise its first
1000 characters with the truncation marker appended (total length
1023). -/
theorem summary_truncation (success failed : List String) :
    ((buildMessage success failed).length ≤ 1000 →
      truncateMessage (buildMessage success failed) = buildMessage success failed) ∧
    (1000 < (buildMessage success failed).length →
      truncateMessage (buildMessage success failed)
          = pySlice (buildMessage success failed) 1000 ++ "\n...(message truncated)" ∧
        (truncateMessage (buildMessage success failed)).length = 1023) := by
  constructor
  · intro h
    unfold truncateMessage
    rw [if_neg (by omega)]
  · intro h
    have heq : truncateMessage (buildMessage success failed)
        = pySlice (buildMessage success failed) 1000 ++ "\n...(message truncated)" := by
      unfold truncateMessage
      rw [if_pos h]
    refine ⟨heq, ?_⟩
    rw [heq]
    have h1 : (pySlice (buildMessage success failed) 1000
          ++ ("\n...(message truncated)" : String)).data
        = (buildMessage success failed).data.take 1000
          ++ ("\n...(message truncated)" : String).data := by
      rw [string_data_append]
      rfl
    show (pySlice (buildMessage success failed) 1000
        ++ ("\n...(message truncated)" : String)).data.length = 1023
    rw [h1, List.length_append, List.length_take]
    have h2 : 1000 < (buildMessage success failed).data.length := h
    have h3 : ("\n...(message truncated)" : String).data.length = 23 := by decide
    omega

set_option maxRecDepth 10000 in
/-- C9 witness: a short summary passes through unmodified; a summary
built from an 1100-character failure entry is truncated to length
1023. -/
theorem summary_truncation_witness :
    truncateMessage (buildMessage ["r1"] []) = buildMessage ["r1"] [] ∧
    1000 < (buildMessage [] [String.mk (List.replicate 1100 'a')]).length ∧
    (truncateMessage (buildMessage [] [String.mk (List.replicate 1100 'a')])).length
      = 1023 := by
  have hlong : 1000 < (buildMessage [] [String.mk (List.replicate 1100 'a')]).length := by
    decide
  exact ⟨(summary_truncation ["r1"] []).1 (by decide), hlong,
    ((summary_truncation [] [String.mk (List.replicate 1100 'a')]).2 hlong).2⟩

/-- C10: in per-reference input mode, a reference whose text-field
content is empty or whitespace-only after stripping is skipped
silently: no outcome, no log entry, no state change, and the loop
continues with the remaining references. -/
theorem relink_skips_blank_input {σ : Type} (H : Host σ) (fs : FS)
    (dirOnly convertToForward : Bool) (input : String) (mrest : List (Ref × String))
    (b : BatchState σ) (r : Ref) (hobj : H.objExists b.host r = true)
    (hblank : pyStrip input = "") :
    processRefMapped H fs dirOnly convertToForward b (r, input) = b ∧
    relinkMappedLoop H fs dirOnly convertToForward ((r, input) :: mrest) b
      = relinkMappedLoop H fs dirOnly convertToForward mrest b := by
  have h1 : processRefMapped H fs dirOnly convertToForward b (r, input) = b := by
    unfold processRefMapped
    simp [hobj, hblank]
  refine ⟨h1, ?_⟩
  show relinkMappedLoop H fs dirOnly convertToForward mrest
      (processRefMapped H fs dirOnly convertToForward b (r, input)) = _
  rw [h1]

/-- C10 witness: a whitespace-only text field is skipped with the
session state untouched. -/
theorem relink_skips_blank_input_witness :
    processRefMapped simHostOk fsLib true true (initBatch stateHostA) ("ref1", "  ")
      = initBatch stateHostA ∧
    relinkMappedLoop simHostOk fsLib true true [("ref1", "  ")] (initBatch stateHostA)
      = relinkMappedLoop simHostOk fsLib true true [] (initBatch stateHostA) :=
  relink_skips_blank_input simHostOk fsLib true true "  " [] (initBatch stateHostA) "ref1"
    (by decide) (by decide)

end FixMyRefs
